import Mathlib

/-!
Verification development for the birthday-bot AI greeting core (`bot.py`).

The definitions below are a shallow embedding of the functions of `bot.py`
that the verified properties talk about:

* `get_gigachat_token` (bot.py 121-160): the global token cache with 60 s
  expiry skew; network effects are passed in as an `OauthOutcome` value.
* `gigachat_request` / `gigachat_generate_image` (bot.py 163-262): the
  retry loops, modelled by `runLoop`, which threads the token-cache state
  through the attempts and records a trace of token fetches and API calls.
* `detect_gender` (bot.py 265-279): response parsing with the `'f'` default.
* `extractFileId` / `processContent` (bot.py 240-256): the `<img src="...">`
  marker scan and file download of the image generator.
* `generate_ai_greeting` (bot.py 313-330): the greeting pipeline, recorded
  as a bundle plus an event trace (image calls and sleeps).
* `daily_birthday_check` (bot.py 607-653): the daily dispatcher, recorded
  as an event trace over recipients and subjects.
* `stepCaller` / `runSchedule`: an interleaving model of several
  cooperative callers of `get_gigachat_token` sharing the global cache.

Python truthiness that the source relies on (`if response:`, `if token:`,
`if card_data:`, `if cache["token"] and cache["expires"]:`) is modelled
explicitly (`strTruthy`, `bytesTruthy`, and the checks in `cacheHit`).
Time stamps are rationals (Python floats hold exact values in the ranges
used here); byte strings are `List Nat`.
-/

/-! ## Token cache (bot.py 54-57, 121-160) -/

/-- The global `gigachat_token_cache` dictionary (bot.py 54-57). -/
structure TokenCacheState where
  token : Option String
  expires : Option ℚ
deriving DecidableEq

/-- Outcome of the OAuth POST (bot.py 138-160): HTTP 200 with an
`access_token` and a millisecond `expires_at`, a non-200 status, or a
raised exception. -/
inductive OauthOutcome
| ok (accessToken : String) (expiresAtMs : ℚ)
| httpError (status : Nat)
| exc
deriving DecidableEq

/-- Result of one call to `get_gigachat_token`: the returned value, the
cache state afterwards, and whether the OAuth network request was made. -/
structure TokenResult where
  result : Option String
  cache : TokenCacheState
  networkCall : Bool
deriving DecidableEq

/-- The cache check of bot.py 126-128: both cache fields truthy
(non-`None`, non-empty string, non-zero number) and
`now < expires - 60`. -/
def cacheHit (cache : TokenCacheState) (now : ℚ) : Bool :=
  match cache.token, cache.expires with
  | some t, some e => !t.isEmpty && !(decide (e = 0)) && decide (now < e - 60)
  | _, _ => false

/-- Embedding of `get_gigachat_token` (bot.py 121-160).  `authConfigured` models the
`GIGACHAT_AUTH` environment check of line 130; `net` is the outcome of
the OAuth exchange of lines 138-160.  On HTTP 200 the cache stores the
token and `expires_at / 1000` (line 153); on failure the cache is left
unchanged and `None` is returned. -/
def get_gigachat_token (cache : TokenCacheState) (now : ℚ) (authConfigured : Bool)
    (net : OauthOutcome) : TokenResult :=
  if cacheHit cache now then
    ⟨cache.token, cache, false⟩
  else if authConfigured = false then
    ⟨none, cache, false⟩
  else
    match net with
    | OauthOutcome.ok tok ms => ⟨some tok, ⟨some tok, some (ms / 1000)⟩, true⟩
    | OauthOutcome.httpError _ => ⟨none, cache, true⟩
    | OauthOutcome.exc => ⟨none, cache, true⟩

/-! ## Gender detection (bot.py 265-279) -/

/-- Python `str.upper` restricted to the alphabets the bot uses:
ASCII `a`-`z` and Cyrillic `а`-`я`/`ё`.  Both ranges uppercase by
subtracting 32 from the code point (`ё` is the one Cyrillic exception). -/
def pyUpperChar (c : Char) : Char :=
  if ('a' ≤ c && c ≤ 'z') || ('а' ≤ c && c ≤ 'я') then Char.ofNat (c.toNat - 32)
  else if c = 'ё' then 'Ё'
  else c

/-- Python `str.strip()` on the character list: whitespace removed from
both ends. -/
def trimChars (cs : List Char) : List Char :=
  ((cs.dropWhile Char.isWhitespace).reverse.dropWhile Char.isWhitespace).reverse

/-- The `response.strip().upper()` step of bot.py 273, on the character list. -/
def stripUpper (cs : List Char) : List Char :=
  (trimChars cs).map pyUpperChar

/-- Embedding of `detect_gender` (bot.py 265-279), as a function of the provider
response returned by `gigachat_request` (a failed request yields `none`;
Python additionally treats an empty response string as falsy).  The
stripped, uppercased response is tested for `М` first, then `Ж`, and
everything else falls through to the `"f"` default of line 279. -/
def detect_gender (response : Option String) : String :=
  match response with
  | none => "f"
  | some r =>
    if r.isEmpty then "f"
    else
      let u := stripUpper r.data
      if u.contains 'М' then "m"
      else if u.contains 'Ж' then "f"
      else "f"

/-! ## Retry loops (bot.py 163-262)

Both `gigachat_request` and `gigachat_generate_image` run
`for attempt in range(max_retries)`, fetch a token from the global cache
at the start of every attempt (`token = await get_gigachat_token()`),
skip the attempt when the token is falsy, perform the HTTP call, and
fall through to the next attempt on any failure; after the loop they
return `None`.  `runLoop` embeds that shape once, parameterised by the
per-attempt payload semantics, threading the cache and recording a
trace of fetches and API calls. -/

/-- Per-attempt environment: the wall-clock time and OAuth outcome seen
by that attempt's `get_gigachat_token` call, plus the network payload of
the attempt's own HTTP request. -/
structure AttemptEnv (α : Type) where
  now : ℚ
  oauth : OauthOutcome
  payload : α

/-- Trace events of a retry loop: a token fetch (the value the cache
returned) and an API call carrying the bearer token it was made with. -/
inductive ReqEvent
| fetch (t : Option String)
| apiCall (t : String)
deriving DecidableEq

/-- Result of a retry loop: the returned value, the trace of fetches and
API calls, and the final token-cache state. -/
structure RunResult (β : Type) where
  result : Option β
  trace : List ReqEvent
  cache : TokenCacheState

/-- The common retry loop of bot.py 165-201 / 206-262.  `i` is the index
of the current attempt, the second `Nat` the remaining attempts
(`max_retries - i` initially).  `attemptResult` maps an attempt's network
payload to `some value` (the attempt returns) or `none` (non-200 status,
timeout, exception, or unparsable body: the loop continues). -/
def runLoop {α β : Type} (auth : Bool) (attemptResult : α → Option β)
    (env : Nat → AttemptEnv α) : Nat → Nat → TokenCacheState → RunResult β
  | _, 0, cache => ⟨none, [], cache⟩
  | i, r + 1, cache =>
    let a := env i
    let tr := get_gigachat_token cache a.now auth a.oauth
    match tr.result with
    | none =>
      let rest := runLoop auth attemptResult env (i + 1) r tr.cache
      ⟨rest.result, ReqEvent.fetch none :: rest.trace, rest.cache⟩
    | some tok =>
      if tok.isEmpty then
        let rest := runLoop auth attemptResult env (i + 1) r tr.cache
        ⟨rest.result, ReqEvent.fetch (some tok) :: rest.trace, rest.cache⟩
      else
        match attemptResult a.payload with
        | some b => ⟨some b, [ReqEvent.fetch (some tok), ReqEvent.apiCall tok], tr.cache⟩
        | none =>
          let rest := runLoop auth attemptResult env (i + 1) r tr.cache
          ⟨rest.result, ReqEvent.fetch (some tok) :: ReqEvent.apiCall tok :: rest.trace,
            rest.cache⟩

/-- Network payload of one text-completion attempt (bot.py 177-199):
an HTTP response with a status and the parsed
`choices[0].message.content` (`none` when the body fails to parse), a
timeout, or another exception. -/
inductive TextAttemptOutcome
| response (status : Nat) (content : Option String)
| timeout
| exc
deriving DecidableEq

/-- What one text attempt returns: the content on a 200 response with a
parsable body, otherwise `none` (the loop continues). -/
def textOutcomeResult : TextAttemptOutcome → Option String
  | TextAttemptOutcome.response s c => if s = 200 then c else none
  | TextAttemptOutcome.timeout => none
  | TextAttemptOutcome.exc => none

/-- Embedding of `gigachat_request` (bot.py 163-201), over the initial cache state and
the per-attempt environments. -/
def gigachat_request (auth : Bool) (cache : TokenCacheState)
    (env : Nat → AttemptEnv TextAttemptOutcome) (max_retries : Nat) : RunResult String :=
  runLoop auth textOutcomeResult env 0 max_retries cache

/-! ## Image marker parsing and download (bot.py 236-262) -/

/-- Whether `pat` is an initial segment of `cs`. -/
def startsWith : List Char → List Char → Bool
  | [], _ => true
  | _ :: _, [] => false
  | p :: ps, c :: cs => p == c && startsWith ps cs

/-- Python `content.find(pat)`: index of the first occurrence of `pat`
(`none` models Python's `-1`). -/
def findSub : List Char → List Char → Option Nat
  | [], pat => if pat.isEmpty then some 0 else none
  | c :: rest, pat =>
    if startsWith pat (c :: rest) then some 0
    else (findSub rest pat).map (· + 1)

/-- Index of the first occurrence of `ch` in `cs` (`none` for `-1`). -/
def findIdxFrom : List Char → Char → Option Nat
  | [], _ => none
  | c :: rest, ch =>
    if c = ch then some 0 else (findIdxFrom rest ch).map (· + 1)

/-- Python `content.find(ch, start)`. -/
def findCharFrom (cs : List Char) (ch : Char) (start : Nat) : Option Nat :=
  (findIdxFrom (cs.drop start) ch).map (start + ·)

/-- The marker `<img src="` scanned for at bot.py 240 (10 characters;
the code hard-codes the offset 10). -/
def imgMarker : List Char := ['<', 'i', 'm', 'g', ' ', 's', 'r', 'c', '=', '"']

/-- The marker scan and identifier extraction of bot.py 240-243:
`start = content.find("<img src=\"") + 10`, `end = content.find("\"", start)`,
`file_id = content[start:end]`.  When no closing quote exists Python's
`find` yields `-1` and the slice `content[start:-1]` stops one character
before the end; that case is modelled by the `none` branch. -/
def extractFileId (content : List Char) : Option (List Char) :=
  match findSub content imgMarker with
  | none => none
  | some idx =>
    let start := idx + 10
    match findCharFrom content '"' start with
    | some e => some ((content.drop start).take (e - start))
    | none => some ((content.drop start).take (content.length - 1 - start))

/-- Outcome of the file download GET of bot.py 246-254: an HTTP response
with a status and body bytes, or a raised exception (caught by the
attempt's `except`). -/
inductive DlOutcome
| response (status : Nat) (bytes : List Nat)
| exc

/-- The body of a successful image completion (bot.py 240-256): scan for
the marker, extract the file id, download it; HTTP 200 on the download
returns the bytes, anything else makes the attempt fail (`none`). -/
def processContent (content : List Char) (dl : List Char → DlOutcome) : Option (List Nat) :=
  match extractFileId content with
  | none => none
  | some fid =>
    match dl fid with
    | DlOutcome.response st bs => if st = 200 then some bs else none
    | DlOutcome.exc => none

/-- Network payload of one image attempt (bot.py 218-260): the completion
response status and parsed content, together with the download behaviour
for whatever file id gets extracted; or a timeout / other exception. -/
inductive ImgAttemptOutcome
| response (status : Nat) (content : Option (List Char)) (dl : List Char → DlOutcome)
| timeout
| exc

/-- What one image attempt returns (bot.py 232-256): bytes only when the
completion returned 200 with a parsable body whose content carries a
marker whose file downloads with status 200. -/
def imgOutcomeResult : ImgAttemptOutcome → Option (List Nat)
  | ImgAttemptOutcome.response s c dl =>
    if s = 200 then
      match c with
      | some content => processContent content dl
      | none => none
    else none
  | ImgAttemptOutcome.timeout => none
  | ImgAttemptOutcome.exc => none

/-- Embedding of `gigachat_generate_image` (bot.py 204-262), over the initial cache
state and the per-attempt environments. -/
def gigachat_generate_image (auth : Bool) (cache : TokenCacheState)
    (env : Nat → AttemptEnv ImgAttemptOutcome) (max_retries : Nat) : RunResult (List Nat) :=
  runLoop auth imgOutcomeResult env 0 max_retries cache

/-! ## Greeting pipeline (bot.py 313-330) -/

/-- The constant `IMAGE_DELAY` (bot.py 35): seconds slept between the two card
generations. -/
def IMAGE_DELAY : Nat := 30

/-- The dictionary returned by `generate_ai_greeting` (bot.py 326-330). -/
structure GreetingBundle where
  greeting : Option String
  cards : List (Option (List Nat))
  gender : String

/-- Environment of one pipeline run: the provider response seen by
`detect_gender`, and the results of `generate_greeting` and of each
`generate_birthday_card` call (each of which is `gigachat_request` /
`gigachat_generate_image`, already total and `Option`-valued, so their
outcomes are supplied as values here). -/
structure PipelineEnv where
  genderResponse : Option String
  greeting : Option String
  card : Nat → Option (List Nat)

/-- Observable steps of one pipeline run. -/
inductive PipeEvent
| detectGenderCall
| greetingCall
| sleepSec (n : Nat)
| imageCall (i : Nat)
deriving DecidableEq

/-- Embedding of `generate_ai_greeting` (bot.py 313-330): gender, greeting, then
`for i in range(2): if i > 0: sleep(IMAGE_DELAY); card = ...;
cards.append(card)`.  Returns the bundle and the event trace. -/
def generate_ai_greeting (env : PipelineEnv) : GreetingBundle × List PipeEvent :=
  let gender := detect_gender env.genderResponse
  let res := (List.range 2).foldl
    (fun (acc : List (Option (List Nat)) × List PipeEvent) i =>
      (acc.1 ++ [env.card i],
       acc.2 ++ (if 0 < i then [PipeEvent.sleepSec IMAGE_DELAY] else [])
             ++ [PipeEvent.imageCall i]))
    ([], [PipeEvent.detectGenderCall, PipeEvent.greetingCall])
  (⟨env.greeting, res.1, gender⟩, res.2)

/-! ## Daily dispatcher (bot.py 607-653) -/

/-- Python truthiness of an optional string (`if greeting:`,
`if response:`): present and non-empty. -/
def strTruthy : Option String → Bool
  | none => false
  | some s => !s.isEmpty

/-- Python truthiness of optional bytes (`if card_data:`): present and
non-empty. -/
def bytesTruthy : Option (List Nat) → Bool
  | none => false
  | some bs => !bs.isEmpty

/-- One subject due today, bundled with the outcomes the environment
produces for it: the `generate_greeting` result, each
`generate_birthday_card` result, and whether each transport send raises
(`false` = `app.bot.send_*` raises, caught by the `except` around it). -/
structure SubjectRun where
  name : String
  greeting : Option String
  card : Nat → Option (List Nat)
  textSendOk : Bool
  photoSendOk : Nat → Bool
  fallbackSendOk : Bool

/-- One entry of `sessions` (a chat) with its subjects due today
(`get_birthdays_today(load_birthdays(code))`, supplied externally). -/
structure RecipientRun where
  chatId : String
  subjects : List SubjectRun

/-- Observable steps of the daily dispatcher.  `textError`, `photoError`
and `fallbackError` are the logged transport failures of the
`except` blocks at bot.py 628, 644 and 652. -/
inductive DispEvent
| genderCall (chat name : String)
| greetingCall (chat name : String)
| textSent (chat name : String)
| textError (chat name : String)
| imageGen (chat name : String) (i : Nat)
| sleepSec (n : Nat)
| photoSent (chat name : String) (i : Nat)
| photoError (chat name : String) (i : Nat)
| fallbackSent (chat name : String)
| fallbackError (chat name : String)
deriving DecidableEq

/-- The photo delivery of bot.py 638-643: only a truthy `card_data` is
sent; a raising send is caught and logged (line 644). -/
def photoPart (chat : String) (s : SubjectRun) (i : Nat) : List DispEvent :=
  if bytesTruthy (s.card i) then
    if s.photoSendOk i then [DispEvent.photoSent chat s.name i]
    else [DispEvent.photoError chat s.name i]
  else []

/-- The card loop of bot.py 632-645: `for i in range(2)`, sleeping
`IMAGE_DELAY` before every card but the first, generating the card, then
attempting delivery. -/
def cardPart (chat : String) (s : SubjectRun) : List DispEvent :=
  (List.range 2).foldl
    (fun acc i =>
      acc ++ (if 0 < i then [DispEvent.sleepSec IMAGE_DELAY] else [])
          ++ [DispEvent.imageGen chat s.name i] ++ photoPart chat s i)
    []

/-- Handling of one subject (bot.py 614-653): gender and greeting
generation, then either the text send (caught on failure) followed by
the card loop, or — when the greeting is falsy — the single canned
fallback message (caught on failure). -/
def handleSubject (chat : String) (s : SubjectRun) : List DispEvent :=
  [DispEvent.genderCall chat s.name, DispEvent.greetingCall chat s.name] ++
  (if strTruthy s.greeting then
    (if s.textSendOk then [DispEvent.textSent chat s.name]
     else [DispEvent.textError chat s.name]) ++ cardPart chat s
  else
    [if s.fallbackSendOk then DispEvent.fallbackSent chat s.name
     else DispEvent.fallbackError chat s.name])

/-- The inner `for birthday in today_bdays` loop of bot.py 614. -/
def subjectsLoop (chat : String) : List SubjectRun → List DispEvent
  | [] => []
  | s :: rest => handleSubject chat s ++ subjectsLoop chat rest

/-- All events produced for one recipient. -/
def handleRecipient (r : RecipientRun) : List DispEvent :=
  subjectsLoop r.chatId r.subjects

/-- Embedding of `daily_birthday_check` (bot.py 607-653): the outer
`for chat_id, code in sessions.items()` loop. -/
def daily_birthday_check : List RecipientRun → List DispEvent
  | [] => []
  | r :: rest => handleRecipient r ++ daily_birthday_check rest

/-- The chat a dispatcher event addresses (`none` for sleeps). -/
def eventChat : DispEvent → Option String
  | DispEvent.genderCall c _ => some c
  | DispEvent.greetingCall c _ => some c
  | DispEvent.textSent c _ => some c
  | DispEvent.textError c _ => some c
  | DispEvent.imageGen c _ _ => some c
  | DispEvent.sleepSec _ => none
  | DispEvent.photoSent c _ _ => some c
  | DispEvent.photoError c _ _ => some c
  | DispEvent.fallbackSent c _ => some c
  | DispEvent.fallbackError c _ => some c

/-- The sub-trace of events addressing chat `c`. -/
def chatEvents (c : String) (tr : List DispEvent) : List DispEvent :=
  tr.filter (fun e => eventChat e == some c)

/-- Image-generation events. -/
def isImg : DispEvent → Bool
  | DispEvent.imageGen _ _ _ => true
  | _ => false

/-- Image-generation or sleep events (the ones pacing talks about). -/
def isImgOrSleep : DispEvent → Bool
  | DispEvent.imageGen _ _ _ => true
  | DispEvent.sleepSec _ => true
  | _ => false

/-- No two image-generation events are adjacent in the list. -/
def noAdjacentImages : List DispEvent → Bool
  | a :: b :: rest => (!(isImg a && isImg b)) && noAdjacentImages (b :: rest)
  | _ => true

/-- Global pacing of a dispatcher trace: restricted to image calls and
sleeps, every two successive image calls have at least one sleep between
them. -/
def imagesGloballyPaced (tr : List DispEvent) : Bool :=
  noAdjacentImages (tr.filter isImgOrSleep)

/-! ## Concurrent callers of the token cache (bot.py 121-160)

`get_gigachat_token` runs on the asyncio event loop: the cache check
(lines 126-131) executes atomically up to the first `await`, and the
OAuth exchange (lines 138-160) completes at a later resumption, writing
the cache.  `stepCaller` advances one caller by one such segment;
`runSchedule` interleaves callers according to a schedule. -/

/-- Progress of one caller of `get_gigachat_token`. -/
inductive CallerPhase
| idle
| inFlight
| done (result : Option String)
deriving DecidableEq

/-- Shared cache, per-caller phases, and the number of OAuth requests
issued so far. -/
structure MultiState where
  cache : TokenCacheState
  phases : List CallerPhase
  oauthCalls : Nat
deriving DecidableEq

/-- Advance caller `k` by one atomic segment.  An idle caller runs the
cache check: on a hit it returns the cached token, otherwise (with
`GIGACHAT_AUTH` set) it issues the OAuth request and suspends.  A
suspended caller completes its exchange with outcome `net`, writing the
cache on HTTP 200 (bot.py 152-153). -/
def stepCaller (auth : Bool) (now : ℚ) (net : OauthOutcome) (st : MultiState)
    (k : Nat) : MultiState :=
  match st.phases[k]? with
  | none => st
  | some CallerPhase.idle =>
    if cacheHit st.cache now then
      MultiState.mk st.cache (st.phases.set k (CallerPhase.done st.cache.token)) st.oauthCalls
    else if auth = false then
      MultiState.mk st.cache (st.phases.set k (CallerPhase.done none)) st.oauthCalls
    else
      MultiState.mk st.cache (st.phases.set k CallerPhase.inFlight) (st.oauthCalls + 1)
  | some CallerPhase.inFlight =>
    match net with
    | OauthOutcome.ok tok ms =>
      MultiState.mk ⟨some tok, some (ms / 1000)⟩
        (st.phases.set k (CallerPhase.done (some tok))) st.oauthCalls
    | OauthOutcome.httpError _ =>
      MultiState.mk st.cache (st.phases.set k (CallerPhase.done none)) st.oauthCalls
    | OauthOutcome.exc =>
      MultiState.mk st.cache (st.phases.set k (CallerPhase.done none)) st.oauthCalls
  | some (CallerPhase.done _) => st

/-- Run a schedule of caller steps. -/
def runSchedule (auth : Bool) (now : ℚ) (net : OauthOutcome) :
    MultiState → List Nat → MultiState
  | st, [] => st
  | st, k :: rest => runSchedule auth now net (stepCaller auth now net st k) rest

/-- The start state: `n` callers about to call `get_gigachat_token` with an empty cache. -/
def initState (n : Nat) : MultiState :=
  ⟨⟨none, none⟩, List.replicate n CallerPhase.idle, 0⟩

/-- A caller still before its cache check. -/
def isIdlePhase : CallerPhase → Bool
  | CallerPhase.idle => true
  | _ => false

/-- Number of callers still before their cache check. -/
def idleCount (phases : List CallerPhase) : Nat :=
  phases.countP isIdlePhase

/-! ## Concrete inputs used by counterexamples and witnesses -/

/-- A subject whose generations all succeed and whose transports behave
as given. -/
def mkSubject (nm : String) (tOk : Bool) : SubjectRun :=
  ⟨nm, some "Happy", fun _ => some [1], tOk, fun _ => true, true⟩

/-- One recipient with two subjects due today, everything succeeding. -/
def twoSubjectRecipient : RecipientRun :=
  ⟨"1", [mkSubject "A" true, mkSubject "B" true]⟩

/-- Three recipients, the second one's text transport failing. -/
def threeRecipients : List RecipientRun :=
  [⟨"1", [mkSubject "A" true]⟩, ⟨"2", [mkSubject "B" false]⟩, ⟨"3", [mkSubject "C" true]⟩]

/-- Sleep events of a pipeline trace. -/
def isPipeSleep : PipeEvent → Bool
  | PipeEvent.sleepSec _ => true
  | _ => false

/-- Image-call or sleep events of a pipeline trace. -/
def isPipePace : PipeEvent → Bool
  | PipeEvent.sleepSec _ => true
  | PipeEvent.imageCall _ => true
  | _ => false

/-- Token-fetch events of a retry-loop trace. -/
def isFetch : ReqEvent → Bool
  | ReqEvent.fetch _ => true
  | _ => false

/-- Fallback-delivery attempts (successful or logged-failed) of a
dispatcher trace. -/
def isFallbackAttempt : DispEvent → Bool
  | DispEvent.fallbackSent _ _ => true
  | DispEvent.fallbackError _ _ => true
  | _ => false

/-- Successfully delivered fallback messages. -/
def isFallbackSent : DispEvent → Bool
  | DispEvent.fallbackSent _ _ => true
  | _ => false

/-- Photo transport events (sent or logged-failed) of a dispatcher trace. -/
def isPhotoEvent : DispEvent → Bool
  | DispEvent.photoSent _ _ _ => true
  | DispEvent.photoError _ _ _ => true
  | _ => false

/-- Well-formed retry traces: a sequence of attempts, each consisting of
one token fetch, where an API call only ever occurs immediately after a
fetch that returned that same token. -/
inductive AttemptTrace : List ReqEvent → Prop
| nil : AttemptTrace []
| failFetch (t : Option String) (rest : List ReqEvent) :
    AttemptTrace rest → AttemptTrace (ReqEvent.fetch t :: rest)
| call (t : String) (rest : List ReqEvent) :
    AttemptTrace rest → AttemptTrace (ReqEvent.fetch (some t) :: ReqEvent.apiCall t :: rest)

/-! # Theorems -/

/-- C2: for every name, `detect_gender` returns exactly `"m"` or `"f"`;
the response is uppercased and tested for the male marker `М` first,
then the female marker `Ж`, and if neither is present or the request
failed entirely the result is the deliberate default `"f"`. -/
theorem C2_detect_gender_total_default :
    (∀ resp : Option String, detect_gender resp = "m" ∨ detect_gender resp = "f")
    ∧ detect_gender none = "f"
    ∧ (∀ s : String, (stripUpper s.data).contains 'М' = true → detect_gender (some s) = "m")
    ∧ (∀ s : String, (stripUpper s.data).contains 'М' = false → detect_gender (some s) = "f") := by
  refine ⟨?_, rfl, ?_, ?_⟩
  · intro resp
    cases resp with
    | none => right; rfl
    | some s =>
      simp only [detect_gender]
      split_ifs <;> simp
  · intro s h
    have he : s.isEmpty = false := by
      cases hh : s.isEmpty with
      | false => rfl
      | true =>
        exfalso
        have hs : s = "" := (String.isEmpty_iff s).mp hh
        subst hs
        exact absurd h (by decide)
    simp [detect_gender, he]
    simpa using h
  · intro s h
    simp only [detect_gender]
    split_ifs with h1 h2 h3
    · rfl
    · exact absurd (h ▸ h2) (by decide)
    · rfl
    · rfl

/-- C2 witness: concrete male, female and failed responses. -/
theorem C2_detect_gender_total_default_witness :
    detect_gender (some "м") = "m" ∧ detect_gender (some "Ж") = "f"
    ∧ detect_gender none = "f" :=
  ⟨C2_detect_gender_total_default.2.2.1 "м" (by decide),
   C2_detect_gender_total_default.2.2.2 "Ж" (by decide),
   C2_detect_gender_total_default.2.1⟩

/-- C3: with `GIGACHAT_AUTH` configured, `get_gigachat_token` serves the
cached token with no network call exactly when a truthy credential is
cached and `now` is more than 60 s before its expiry; a credential
expiring 30 s from now triggers a refresh while one expiring 120 s from
now is served from cache; and a successful refresh stores the provider's
millisecond `expires_at` divided by 1000. -/
theorem C3_token_cache_policy :
    (∀ cache now net,
      ((get_gigachat_token cache now true net).networkCall = false
        ↔ cacheHit cache now = true))
    ∧ (∀ cache now net, cacheHit cache now = true →
        get_gigachat_token cache now true net = ⟨cache.token, cache, false⟩)
    ∧ (∀ (t : String) (now : ℚ) (net : OauthOutcome), t ≠ "" →
        (get_gigachat_token ⟨some t, some (now + 30)⟩ now true net).networkCall = true)
    ∧ (∀ (t : String) (now : ℚ) (net : OauthOutcome), t ≠ "" → 0 ≤ now →
        (get_gigachat_token ⟨some t, some (now + 120)⟩ now true net).networkCall = false
        ∧ (get_gigachat_token ⟨some t, some (now + 120)⟩ now true net).result = some t)
    ∧ (∀ cache now tok ms, cacheHit cache now = false →
        (get_gigachat_token cache now true (OauthOutcome.ok tok ms)).cache
          = ⟨some tok, some (ms / 1000)⟩
        ∧ (get_gigachat_token cache now true (OauthOutcome.ok tok ms)).result = some tok) := by
  have hne : ∀ (t : String), t ≠ "" → t.isEmpty = false := by
    intro t ht
    cases hh : t.isEmpty with
    | false => rfl
    | true => exact absurd ((String.isEmpty_iff t).mp hh) ht
  refine ⟨?_, ?_, ?_, ?_, ?_⟩
  · intro cache now net
    by_cases h : cacheHit cache now = true
    · simp [get_gigachat_token, h]
    · rw [Bool.not_eq_true] at h
      cases net <;> simp [get_gigachat_token, h]
  · intro cache now net h
    simp [get_gigachat_token, h]
  · intro t now net ht
    have hmiss : cacheHit ⟨some t, some (now + 30)⟩ now = false := by
      have hlt : ¬(now < now + 30 - 60) := by intro hc; linarith
      simp [cacheHit, hlt]
    cases net <;> simp [get_gigachat_token, hmiss]
  · intro t now net ht hnow
    have hhit : cacheHit ⟨some t, some (now + 120)⟩ now = true := by
      have h0 : ¬(now + 120 = 0) := by intro hc; linarith
      have hlt : now < now + 120 - 60 := by linarith
      simp [cacheHit, hne t ht, h0, hlt]
    exact ⟨by simp [get_gigachat_token, hhit], by simp [get_gigachat_token, hhit]⟩
  · intro cache now tok ms h
    simp [get_gigachat_token, h]

/-- C3 witness: a token 30 s from expiry refreshes, one 120 s out is
served from cache. -/
theorem C3_token_cache_policy_witness :
    (get_gigachat_token ⟨some "x", some ((0 : ℚ) + 30)⟩ 0 true OauthOutcome.exc).networkCall
      = true
    ∧ (get_gigachat_token ⟨some "x", some ((0 : ℚ) + 120)⟩ 0 true OauthOutcome.exc).networkCall
      = false :=
  ⟨C3_token_cache_policy.2.2.1 "x" 0 OauthOutcome.exc (by decide),
   (C3_token_cache_policy.2.2.2.1 "x" 0 OauthOutcome.exc (by decide) (by norm_num)).1⟩

/-- C6: every pipeline run sleeps exactly once, between the first and the
second image call and never before the first, and the bundle's card list
has exactly the two independently present-or-absent slots. -/
theorem C6_pipeline_pacing_and_slots :
    ∀ env : PipelineEnv,
      (generate_ai_greeting env).2.filter isPipePace
        = [PipeEvent.imageCall 0, PipeEvent.sleepSec 30, PipeEvent.imageCall 1]
      ∧ (generate_ai_greeting env).2.countP isPipeSleep = 1
      ∧ (generate_ai_greeting env).1.cards = [env.card 0, env.card 1]
      ∧ (generate_ai_greeting env).1.cards.length = 2 := by
  intro env
  exact ⟨rfl, rfl, rfl, rfl⟩

/-! ### Dispatcher helper lemmas -/

/-- The card loop of one subject, flattened. -/
lemma cardPart_eq (chat : String) (s : SubjectRun) :
    cardPart chat s
      = [DispEvent.imageGen chat s.name 0] ++ photoPart chat s 0
        ++ [DispEvent.sleepSec 30, DispEvent.imageGen chat s.name 1]
        ++ photoPart chat s 1 := by
  have h : cardPart chat s
      = DispEvent.imageGen chat s.name 0
        :: (((photoPart chat s 0 ++ [DispEvent.sleepSec 30])
          ++ [DispEvent.imageGen chat s.name 1]) ++ photoPart chat s 1) := rfl
  rw [h]
  simp

/-- Photo delivery events are one of the two photo transport events. -/
lemma mem_photoPart (chat : String) (s : SubjectRun) (i : Nat) (e : DispEvent)
    (he : e ∈ photoPart chat s i) :
    e = DispEvent.photoSent chat s.name i ∨ e = DispEvent.photoError chat s.name i := by
  unfold photoPart at he
  split_ifs at he <;> simp_all

/-- Photo delivery events are neither image calls nor sleeps. -/
lemma photoPart_filter_pace (chat : String) (s : SubjectRun) (i : Nat) :
    (photoPart chat s i).filter isImgOrSleep = [] := by
  unfold photoPart
  split_ifs <;> rfl

/-- Every event of one subject's handling addresses that subject's chat
(or is a sleep). -/
lemma mem_handleSubject_chat (chat : String) (s : SubjectRun) (e : DispEvent)
    (he : e ∈ handleSubject chat s) :
    eventChat e = none ∨ eventChat e = some chat := by
  unfold handleSubject at he
  rcases List.mem_append.mp he with h | h
  · simp at h
    rcases h with h | h <;> subst h <;> right <;> rfl
  · by_cases hg : strTruthy s.greeting = true
    · rw [if_pos hg] at h
      rcases List.mem_append.mp h with h | h
      · by_cases ht : s.textSendOk = true
        · rw [if_pos ht] at h
          simp at h
          subst h
          right; rfl
        · rw [if_neg ht] at h
          simp at h
          subst h
          right; rfl
      · rw [cardPart_eq] at h
        simp only [List.append_assoc, List.mem_append] at h
        rcases h with h | h | h | h
        · simp at h; subst h; right; rfl
        · rcases mem_photoPart chat s 0 e h with h | h <;> subst h <;> right <;> rfl
        · simp at h
          rcases h with h | h <;> subst h
          · left; rfl
          · right; rfl
        · rcases mem_photoPart chat s 1 e h with h | h <;> subst h <;> right <;> rfl
    · rw [if_neg hg] at h
      simp at h
      subst h
      split <;> right <;> rfl

/-- Every event of a subjects loop addresses that loop's chat (or is a
sleep). -/
lemma mem_subjectsLoop_chat (chat : String) (subs : List SubjectRun) (e : DispEvent)
    (he : e ∈ subjectsLoop chat subs) :
    eventChat e = none ∨ eventChat e = some chat := by
  induction subs with
  | nil => simp [subjectsLoop] at he
  | cons s rest ih =>
    simp only [subjectsLoop] at he
    rcases List.mem_append.mp he with h | h
    · exact mem_handleSubject_chat chat s e h
    · exact ih h

/-- A recipient's handling only produces events for its own chat. -/
lemma chatEvents_handleRecipient_ne (c : String) (r : RecipientRun) (hne : r.chatId ≠ c) :
    chatEvents c (handleRecipient r) = [] := by
  apply List.filter_eq_nil_iff.mpr
  intro e he
  rcases mem_subjectsLoop_chat r.chatId r.subjects e he with h | h
  · simp [h]
  · simp [h]
    exact hne

/-- The dispatcher loop distributes over list append. -/
lemma daily_append (xs ys : List RecipientRun) :
    daily_birthday_check (xs ++ ys)
      = daily_birthday_check xs ++ daily_birthday_check ys := by
  induction xs with
  | nil => rfl
  | cons r rest ih => simp [daily_birthday_check, ih]

/-- Events of a processed recipient appear in the full dispatcher trace. -/
lemma mem_daily_of_recipient (rs : List RecipientRun) (r : RecipientRun) (e : DispEvent)
    (hr : r ∈ rs) (he : e ∈ handleRecipient r) : e ∈ daily_birthday_check rs := by
  induction rs with
  | nil => simp at hr
  | cons x rest ih =>
    rcases List.mem_cons.mp hr with h | h
    · subst h
      exact List.mem_append.mpr (Or.inl he)
    · exact List.mem_append.mpr (Or.inr (ih h))

/-- A non-empty string is not `isEmpty`. -/
lemma isEmpty_false_of_ne {t : String} (ht : t ≠ "") : t.isEmpty = false := by
  cases hh : t.isEmpty with
  | false => rfl
  | true => exact absurd ((String.isEmpty_iff t).mp hh) ht

/-- The function `chatEvents` distributes over append. -/
lemma chatEvents_append (c : String) (a b : List DispEvent) :
    chatEvents c (a ++ b) = chatEvents c a ++ chatEvents c b :=
  List.filter_append ..

/-- With no recipient for chat `c`, the dispatcher produces no events
for `c`. -/
lemma chatEvents_daily_ne (c : String) (rs : List RecipientRun)
    (h : ∀ q ∈ rs, q.chatId ≠ c) :
    chatEvents c (daily_birthday_check rs) = [] := by
  induction rs with
  | nil => rfl
  | cons r rest ih =>
    show chatEvents c (handleRecipient r ++ daily_birthday_check rest) = []
    rw [chatEvents_append]
    rw [chatEvents_handleRecipient_ne c r (h r (List.mem_cons_self r rest)),
      ih (fun q hq => h q (List.mem_cons_of_mem r hq))]
    rfl

/-- Events of a processed subject appear in the subjects loop. -/
lemma mem_subjectsLoop_of_subject (chat : String) (subs : List SubjectRun) (s : SubjectRun)
    (e : DispEvent) (hs : s ∈ subs) (he : e ∈ handleSubject chat s) :
    e ∈ subjectsLoop chat subs := by
  induction subs with
  | nil => simp at hs
  | cons x rest ih =>
    simp only [subjectsLoop]
    rcases List.mem_cons.mp hs with h | h
    · subst h
      exact List.mem_append.mpr (Or.inl he)
    · exact List.mem_append.mpr (Or.inr (ih h))

/-- C1: the daily dispatch loop processes every recipient and subject
whatever the transport outcomes: the trace decomposes around every
recipient, each transport failure is recorded as a logged error event,
and the events delivered to a recipient's chat are exactly those its own
handling determines, untouched by other recipients' failures. -/
theorem C1_dispatcher_failure_isolation :
    (∀ (pre post : List RecipientRun) (r : RecipientRun),
      daily_birthday_check (pre ++ r :: post)
        = daily_birthday_check pre ++ handleRecipient r ++ daily_birthday_check post)
    ∧ (∀ (rs : List RecipientRun) (r : RecipientRun) (s : SubjectRun),
        r ∈ rs → s ∈ r.subjects →
        (strTruthy s.greeting = true → s.textSendOk = false →
          DispEvent.textError r.chatId s.name ∈ daily_birthday_check rs)
        ∧ (∀ i, i < 2 → strTruthy s.greeting = true → bytesTruthy (s.card i) = true →
            s.photoSendOk i = false →
            DispEvent.photoError r.chatId s.name i ∈ daily_birthday_check rs)
        ∧ (strTruthy s.greeting = false → s.fallbackSendOk = false →
            DispEvent.fallbackError r.chatId s.name ∈ daily_birthday_check rs))
    ∧ (∀ (pre post : List RecipientRun) (r : RecipientRun),
        (∀ q ∈ pre, q.chatId ≠ r.chatId) → (∀ q ∈ post, q.chatId ≠ r.chatId) →
        chatEvents r.chatId (daily_birthday_check (pre ++ r :: post))
          = chatEvents r.chatId (handleRecipient r)) := by
  refine ⟨?_, ?_, ?_⟩
  · intro pre post r
    rw [daily_append]
    simp [daily_birthday_check]
  · intro rs r s hr hs
    refine ⟨?_, ?_, ?_⟩
    · intro hg ht
      refine mem_daily_of_recipient rs r _ hr (mem_subjectsLoop_of_subject _ _ s _ hs ?_)
      simp [handleSubject, hg, ht]
    · intro i hi hg hb hp
      refine mem_daily_of_recipient rs r _ hr (mem_subjectsLoop_of_subject _ _ s _ hs ?_)
      have h01 : i = 0 ∨ i = 1 := by omega
      rcases h01 with h | h <;> subst h <;>
        simp [handleSubject, hg, cardPart_eq, photoPart, hb, hp]
    · intro hg hf
      refine mem_daily_of_recipient rs r _ hr (mem_subjectsLoop_of_subject _ _ s _ hs ?_)
      simp [handleSubject, hg, hf]
  · intro pre post r hpre hpost
    have e1 : daily_birthday_check (pre ++ r :: post)
        = daily_birthday_check pre
          ++ (handleRecipient r ++ daily_birthday_check post) := by
      rw [daily_append]; rfl
    rw [e1, chatEvents_append, chatEvents_append,
      chatEvents_daily_ne _ pre hpre, chatEvents_daily_ne _ post hpost]
    simp

/-- C1 witness: three recipients due today, the second one's text
transport failing — the error is recorded, and the third (and first)
recipient's chat still receives exactly its own events. -/
theorem C1_dispatcher_failure_isolation_witness :
    chatEvents "3" (daily_birthday_check threeRecipients)
      = chatEvents "3" (handleRecipient ⟨"3", [mkSubject "C" true]⟩)
    ∧ DispEvent.textError "2" "B" ∈ daily_birthday_check threeRecipients :=
  ⟨C1_dispatcher_failure_isolation.2.2
      [⟨"1", [mkSubject "A" true]⟩, ⟨"2", [mkSubject "B" false]⟩] []
      ⟨"3", [mkSubject "C" true]⟩ (by decide) (by decide),
   (C1_dispatcher_failure_isolation.2.1 threeRecipients
      ⟨"2", [mkSubject "B" false]⟩ (mkSubject "B" false)
      (List.mem_cons_of_mem _ (List.mem_cons_self _ _))
      (List.mem_cons_self _ _)).1 (by decide) rfl⟩

/-- C9: a subject whose greeting generation returned `None` gets exactly
one canned-fallback delivery attempt, no image generation and no photo
transport at all; with working transport the subject's trace is exactly
the fallback message. -/
theorem C9_fallback_no_images :
    ∀ (chat : String) (s : SubjectRun), s.greeting = none →
      (handleSubject chat s).countP isFallbackAttempt = 1
      ∧ (handleSubject chat s).countP isImg = 0
      ∧ (handleSubject chat s).countP isPhotoEvent = 0
      ∧ (s.fallbackSendOk = true →
          handleSubject chat s
            = [DispEvent.genderCall chat s.name, DispEvent.greetingCall chat s.name,
               DispEvent.fallbackSent chat s.name]) := by
  intro chat s hg
  have h : strTruthy s.greeting = false := by rw [hg]; rfl
  cases hf : s.fallbackSendOk <;>
    refine ⟨?_, ?_, ?_, ?_⟩ <;>
      simp [handleSubject, h, hf, isFallbackAttempt, isImg, isPhotoEvent, List.countP_cons]

/-- C9 witness: a concrete subject with absent greeting. -/
theorem C9_fallback_no_images_witness :
    (handleSubject "1"
        (SubjectRun.mk "B" none (fun _ => some [1]) true (fun _ => true) true)).countP
      isFallbackAttempt = 1
    ∧ (handleSubject "1"
        (SubjectRun.mk "B" none (fun _ => some [1]) true (fun _ => true) true)).countP
      isImg = 0 :=
  ⟨(C9_fallback_no_images "1" _ rfl).1, (C9_fallback_no_images "1" _ rfl).2.1⟩

/-- C10: when the greeting text is present but its send fails, the
failure is logged and the card phase is exactly what it would have been
with a successful send: both cards are generated and every present card
gets a delivery attempt. -/
theorem C10_text_failure_cards_proceed :
    ∀ (chat nm g : String) (card : Nat → Option (List Nat)) (pOk : Nat → Bool) (fb : Bool),
      g ≠ "" →
      ((handleSubject chat (SubjectRun.mk nm (some g) card false pOk fb)).drop 3
        = (handleSubject chat (SubjectRun.mk nm (some g) card true pOk fb)).drop 3)
      ∧ DispEvent.textError chat nm
          ∈ handleSubject chat (SubjectRun.mk nm (some g) card false pOk fb)
      ∧ DispEvent.imageGen chat nm 0
          ∈ handleSubject chat (SubjectRun.mk nm (some g) card false pOk fb)
      ∧ DispEvent.imageGen chat nm 1
          ∈ handleSubject chat (SubjectRun.mk nm (some g) card false pOk fb)
      ∧ (∀ i, i < 2 → bytesTruthy (card i) = true →
          (if pOk i then DispEvent.photoSent chat nm i else DispEvent.photoError chat nm i)
            ∈ handleSubject chat (SubjectRun.mk nm (some g) card false pOk fb)) := by
  intro chat nm g card pOk fb hg
  have ht : strTruthy (some g) = true := by simp [strTruthy, isEmpty_false_of_ne hg]
  refine ⟨?_, ?_, ?_, ?_, ?_⟩
  · simp [handleSubject, ht]
    rfl
  · simp [handleSubject, ht]
  · simp [handleSubject, ht, cardPart_eq]
  · simp [handleSubject, ht, cardPart_eq]
  · intro i hi hb
    have h01 : i = 0 ∨ i = 1 := by omega
    rcases h01 with h | h <;> subst h
    · cases hp : pOk 0 <;> simp [handleSubject, ht, cardPart_eq, photoPart, hb, hp]
    · cases hp : pOk 1 <;> simp [handleSubject, ht, cardPart_eq, photoPart, hb, hp]

/-- C10 witness: concrete subject with failing text transport and one
present card. -/
theorem C10_text_failure_cards_proceed_witness :
    DispEvent.textError "1" "A"
      ∈ handleSubject "1"
          (SubjectRun.mk "A" (some "hi") (fun _ => some [1]) false (fun _ => true) true)
    ∧ DispEvent.imageGen "1" "A" 1
      ∈ handleSubject "1"
          (SubjectRun.mk "A" (some "hi") (fun _ => some [1]) false (fun _ => true) true) :=
  ⟨(C10_text_failure_cards_proceed "1" "A" "hi" (fun _ => some [1]) (fun _ => true) true
      (by decide)).2.1,
   (C10_text_failure_cards_proceed "1" "A" "hi" (fun _ => some [1]) (fun _ => true) true
      (by decide)).2.2.2.1⟩

/-- C7 counterexample: a single scheduler firing with one recipient and
two subjects due today makes four image-generation calls, and the pair
straddling the subject boundary has no pacing sleep between them — the
claimed process-wide 30 s gate does not exist in the code. -/
theorem C7_global_pacing_counterexample :
    imagesGloballyPaced (daily_birthday_check [twoSubjectRecipient]) = false
    ∧ (daily_birthday_check [twoSubjectRecipient]).countP isImg = 4 := by
  constructor <;> decide

/-- C7 amended: pacing is only per subject — within one subject's card
loop the two image calls are separated by the single 30 s sleep (image
calls are serialized into one trace, but nothing separates image calls
of different subjects or recipients). -/
theorem C7_per_subject_pacing :
    ∀ (chat : String) (s : SubjectRun), strTruthy s.greeting = true →
      (handleSubject chat s).filter isImgOrSleep
        = [DispEvent.imageGen chat s.name 0, DispEvent.sleepSec 30,
           DispEvent.imageGen chat s.name 1] := by
  intro chat s hg
  cases ht : s.textSendOk <;>
    simp [handleSubject, hg, ht, cardPart_eq, List.filter_append,
      photoPart_filter_pace, isImgOrSleep]

/-- C7 amended witness: a concrete subject's card loop. -/
theorem C7_per_subject_pacing_witness :
    (handleSubject "1" (mkSubject "A" true)).filter isImgOrSleep
      = [DispEvent.imageGen "1" "A" 0, DispEvent.sleepSec 30,
         DispEvent.imageGen "1" "A" 1] :=
  C7_per_subject_pacing "1" (mkSubject "A" true) (by decide)

/-! ### Retry-loop lemmas -/

/-- A retry loop performs at most as many token fetches (= attempts) as
it has retries left. -/
lemma runLoop_fetch_le {α β : Type} (auth : Bool) (f : α → Option β)
    (env : Nat → AttemptEnv α) :
    ∀ (r i : Nat) (cache : TokenCacheState),
      (runLoop auth f env i r cache).trace.countP isFetch ≤ r := by
  intro r
  induction r with
  | zero => intro i cache; simp [runLoop]
  | succ n ih =>
    intro i cache
    simp only [runLoop]
    split
    · simpa [List.countP_cons, isFetch] using Nat.add_le_add_right (ih (i + 1) _) 1
    · split
      · simpa [List.countP_cons, isFetch] using Nat.add_le_add_right (ih (i + 1) _) 1
      · split
        · simp [List.countP_cons, isFetch]
        · simpa [List.countP_cons, isFetch] using Nat.add_le_add_right (ih (i + 1) _) 1

/-- A retry loop's trace is a well-formed attempt trace: every API call
immediately follows the token fetch of its own attempt and carries that
fetch's token. -/
lemma runLoop_attemptTrace {α β : Type} (auth : Bool) (f : α → Option β)
    (env : Nat → AttemptEnv α) :
    ∀ (r i : Nat) (cache : TokenCacheState),
      AttemptTrace (runLoop auth f env i r cache).trace := by
  intro r
  induction r with
  | zero => intro i cache; exact AttemptTrace.nil
  | succ n ih =>
    intro i cache
    simp only [runLoop]
    split
    · exact AttemptTrace.failFetch none _ (ih (i + 1) _)
    · split
      · exact AttemptTrace.failFetch _ _ (ih (i + 1) _)
      · split
        · exact AttemptTrace.call _ [] AttemptTrace.nil
        · exact AttemptTrace.call _ _ (ih (i + 1) _)

/-- If every attempt in range fails, the loop returns `none` (and no
exception — the function is total). -/
lemma runLoop_all_fail {α β : Type} (auth : Bool) (f : α → Option β)
    (env : Nat → AttemptEnv α) :
    ∀ (r i : Nat) (cache : TokenCacheState),
      (∀ j, i ≤ j → j < i + r → f (env j).payload = none) →
      (runLoop auth f env i r cache).result = none := by
  intro r
  induction r with
  | zero => intro i cache h; rfl
  | succ n ih =>
    intro i cache h
    simp only [runLoop]
    cases hres : (get_gigachat_token cache (env i).now auth (env i).oauth).result with
    | none =>
      simp only [hres]
      exact ih (i + 1) _ (fun j h1 h2 => h j (by omega) (by omega))
    | some tok =>
      simp only [hres]
      by_cases he : tok.isEmpty = true
      · simp only [he, if_true]
        exact ih (i + 1) _ (fun j h1 h2 => h j (by omega) (by omega))
      · simp only [if_neg he]
        cases hpay : f (env i).payload with
        | none =>
          simp only [hpay]
          exact ih (i + 1) _ (fun j h1 h2 => h j (by omega) (by omega))
        | some b =>
          have hc := h i (by omega) (by omega)
          rw [hc] at hpay
          exact Option.noConfusion hpay

/-- A successful loop result comes from some attempt in range whose own
payload succeeded. -/
lemma runLoop_success {α β : Type} (auth : Bool) (f : α → Option β)
    (env : Nat → AttemptEnv α) :
    ∀ (r i : Nat) (cache : TokenCacheState) (b : β),
      (runLoop auth f env i r cache).result = some b →
      ∃ j, i ≤ j ∧ j < i + r ∧ f (env j).payload = some b := by
  intro r
  induction r with
  | zero =>
    intro i cache b h
    exact absurd h (by simp [runLoop])
  | succ n ih =>
    intro i cache b h
    simp only [runLoop] at h
    cases hres : (get_gigachat_token cache (env i).now auth (env i).oauth).result with
    | none =>
      rw [hres] at h
      obtain ⟨j, h1, h2, h3⟩ := ih (i + 1) _ b h
      exact ⟨j, by omega, by omega, h3⟩
    | some tok =>
      simp only [hres] at h
      by_cases he : tok.isEmpty = true
      · rw [if_pos he] at h
        obtain ⟨j, h1, h2, h3⟩ := ih (i + 1) _ b h
        exact ⟨j, by omega, by omega, h3⟩
      · rw [if_neg he] at h
        cases hpay : f (env i).payload with
        | none =>
          simp only [hpay] at h
          obtain ⟨j, h1, h2, h3⟩ := ih (i + 1) _ b h
          exact ⟨j, by omega, by omega, h3⟩
        | some c =>
          simp only [hpay] at h
          have hcb : c = b := by simpa using h
          exact ⟨i, by omega, by omega, by rw [hpay, hcb]⟩

/-- C4: each logical completion operation — text (`gigachat_request`)
and image (`gigachat_generate_image`) — performs at most `max_retries`
attempts, re-fetches the token from the cache at the start of every
attempt (an API call only ever uses the token fetched immediately before
it in the same attempt), and returns `None` rather than raising when
every attempt fails (non-200, timeout, exception, or unparsable body). -/
theorem C4_retry_policy :
    (∀ auth cache env mr,
      (gigachat_request auth cache env mr).trace.countP isFetch ≤ mr)
    ∧ (∀ auth cache env mr, AttemptTrace (gigachat_request auth cache env mr).trace)
    ∧ (∀ auth cache env mr,
        (∀ j, j < mr → textOutcomeResult (env j).payload = none) →
        (gigachat_request auth cache env mr).result = none)
    ∧ (∀ auth cache env mr,
      (gigachat_generate_image auth cache env mr).trace.countP isFetch ≤ mr)
    ∧ (∀ auth cache env mr, AttemptTrace (gigachat_generate_image auth cache env mr).trace)
    ∧ (∀ auth cache env mr,
        (∀ j, j < mr → imgOutcomeResult (env j).payload = none) →
        (gigachat_generate_image auth cache env mr).result = none) := by
  refine ⟨?_, ?_, ?_, ?_, ?_, ?_⟩
  · intro auth cache env mr
    exact runLoop_fetch_le auth textOutcomeResult env mr 0 cache
  · intro auth cache env mr
    exact runLoop_attemptTrace auth textOutcomeResult env mr 0 cache
  · intro auth cache env mr h
    exact runLoop_all_fail auth textOutcomeResult env mr 0 cache
      (fun j h1 h2 => h j (by omega))
  · intro auth cache env mr
    exact runLoop_fetch_le auth imgOutcomeResult env mr 0 cache
  · intro auth cache env mr
    exact runLoop_attemptTrace auth imgOutcomeResult env mr 0 cache
  · intro auth cache env mr h
    exact runLoop_all_fail auth imgOutcomeResult env mr 0 cache
      (fun j h1 h2 => h j (by omega))

/-- C4 witness: with the default 2 retries and every attempt timing out,
the text operation returns `None` after at most 2 fetches. -/
theorem C4_retry_policy_witness :
    (gigachat_request true ⟨none, none⟩
        (fun _ => ⟨0, OauthOutcome.exc, TextAttemptOutcome.timeout⟩) 2).result = none
    ∧ (gigachat_request true ⟨none, none⟩
        (fun _ => ⟨0, OauthOutcome.exc, TextAttemptOutcome.timeout⟩) 2).trace.countP isFetch
        ≤ 2 :=
  ⟨C4_retry_policy.2.2.1 true ⟨none, none⟩
      (fun _ => ⟨0, OauthOutcome.exc, TextAttemptOutcome.timeout⟩) 2 (fun _ _ => rfl),
   C4_retry_policy.1 true ⟨none, none⟩
      (fun _ => ⟨0, OauthOutcome.exc, TextAttemptOutcome.timeout⟩) 2⟩

/-! ### Image-marker parsing lemmas -/

/-- The scan `findIdxFrom` finds the first occurrence of a character. -/
lemma findIdxFrom_append {l1 l2 : List Char} {ch : Char} (h : ch ∉ l1) :
    findIdxFrom (l1 ++ ch :: l2) ch = some l1.length := by
  induction l1 with
  | nil => simp [findIdxFrom]
  | cons c rest ih =>
    have hc : ¬(c = ch) := fun hcc => h (by simp [hcc])
    have hm : ch ∉ rest := fun hmm => h (List.mem_cons_of_mem _ hmm)
    simp [findIdxFrom, hc, ih hm]

/-- C5: the image generator scans the completion content for
`<img src="`, takes the substring up to the next double quote as the
file identifier and downloads that file; content without the marker
makes the attempt yield `None` (not an error), a failed download also
yields `None`, bytes are produced exactly when a marker was found and
its download returned 200, and the whole operation returns bytes only
when some attempt did so. -/
theorem C5_image_marker_parsing :
    (∀ content dl, findSub content imgMarker = none → processContent content dl = none)
    ∧ (∀ (a fid rest : List Char) (dl : List Char → DlOutcome) (bs : List Nat),
        findSub (a ++ imgMarker ++ fid ++ '"' :: rest) imgMarker = some a.length →
        '"' ∉ fid →
        dl fid = DlOutcome.response 200 bs →
        processContent (a ++ imgMarker ++ fid ++ '"' :: rest) dl = some bs)
    ∧ (∀ content dl fid st bs, extractFileId content = some fid →
        dl fid = DlOutcome.response st bs → st ≠ 200 → processContent content dl = none)
    ∧ (∀ content dl fid, extractFileId content = some fid →
        dl fid = DlOutcome.exc → processContent content dl = none)
    ∧ (∀ content dl bs, processContent content dl = some bs →
        ∃ fid, extractFileId content = some fid ∧ dl fid = DlOutcome.response 200 bs)
    ∧ (∀ auth cache env mr bs,
        (gigachat_generate_image auth cache env mr).result = some bs →
        ∃ j, j < mr ∧ imgOutcomeResult (env j).payload = some bs) := by
  refine ⟨?_, ?_, ?_, ?_, ?_, ?_⟩
  · intro content dl h
    simp [processContent, extractFileId, h]
  · intro a fid rest dl bs hfind hq hdl
    have hassoc : a ++ imgMarker ++ fid ++ '"' :: rest
        = (a ++ imgMarker) ++ (fid ++ '"' :: rest) := by
      simp [List.append_assoc]
    have hdrop : (a ++ imgMarker ++ fid ++ '"' :: rest).drop (a.length + 10)
        = fid ++ '"' :: rest := by
      rw [hassoc]
      have hlen : (a ++ imgMarker).length = a.length + 10 := by simp [imgMarker]
      rw [← hlen, List.drop_left]
    have hfc : findCharFrom (a ++ imgMarker ++ fid ++ '"' :: rest) '"' (a.length + 10)
        = some (a.length + 10 + fid.length) := by
      unfold findCharFrom
      rw [hdrop, findIdxFrom_append hq]
      rfl
    have hext : extractFileId (a ++ imgMarker ++ fid ++ '"' :: rest) = some fid := by
      simp only [extractFileId, hfind, hfc]
      have harith : a.length + 10 + fid.length - (a.length + 10) = fid.length := by omega
      rw [harith, hdrop, List.take_left]
    simp only [processContent, hext, hdl]
    simp
  · intro content dl fid st bs hext hdl hst
    simp [processContent, hext, hdl, hst]
  · intro content dl fid hext hdl
    simp [processContent, hext, hdl]
  · intro content dl bs h
    unfold processContent at h
    cases hext : extractFileId content with
    | none =>
      simp only [hext] at h
      exact Option.noConfusion h
    | some fid =>
      simp only [hext] at h
      cases hdl : dl fid with
      | response st bs2 =>
        simp only [hdl] at h
        by_cases hst : st = 200
        · subst hst
          have hb : bs2 = bs := by simpa using h
          exact ⟨fid, rfl, by rw [hdl, hb]⟩
        · rw [if_neg hst] at h
          exact Option.noConfusion h
      | exc =>
        simp only [hdl] at h
        exact Option.noConfusion h
  · intro auth cache env mr bs h
    obtain ⟨j, h1, h2, h3⟩ := runLoop_success auth imgOutcomeResult env mr 0 cache bs h
    exact ⟨j, by omega, h3⟩

/-- C5 witness: concrete content carrying a marker with file id `ID` and
a download that succeeds. -/
theorem C5_image_marker_parsing_witness :
    processContent (['x'] ++ imgMarker ++ ['I', 'D'] ++ '"' :: ['>'])
      (fun _ => DlOutcome.response 200 [5]) = some [5] :=
  C5_image_marker_parsing.2.1 ['x'] ['I', 'D'] ['>']
    (fun _ => DlOutcome.response 200 [5]) [5] (by decide) (by decide) rfl

/-! ### Token-cache concurrency lemmas -/

/-- Replacing one element changes `countP` by the contributions of the
old and new element. -/
lemma countP_set_add {α : Type} (p : α → Bool) (l : List α) (k : Nat) (x : α)
    (h : k < l.length) :
    (l.set k x).countP p + (if p (l.get ⟨k, h⟩) then 1 else 0)
      = l.countP p + (if p x then 1 else 0) := by
  induction l generalizing k with
  | nil => simp at h
  | cons a rest ih =>
    cases k with
    | zero =>
      simp [List.countP_cons]
      omega
    | succ n =>
      have hn : n < rest.length := by
        simp [List.length_cons] at h
        omega
      have hh := ih n hn
      simp only [List.set, List.countP_cons, List.get_cons_succ]
      omega

/-- The number of idle callers of `n` fresh callers. -/
lemma idleCount_replicate (n : Nat) :
    idleCount (List.replicate n CallerPhase.idle) = n := by
  induction n with
  | zero => rfl
  | succ m ih =>
    simp [List.replicate_succ, idleCount, List.countP_cons, isIdlePhase] at *
    omega

/-- One caller step preserves `oauthCalls + idle callers ≤ N`: an OAuth
request is only ever issued by a caller leaving the idle phase, and no
caller ever returns to it. -/
lemma stepCaller_invariant (auth : Bool) (now : ℚ) (net : OauthOutcome) (N : Nat)
    (st : MultiState) (k : Nat)
    (h : st.oauthCalls + idleCount st.phases ≤ N) :
    (stepCaller auth now net st k).oauthCalls
      + idleCount (stepCaller auth now net st k).phases ≤ N := by
  unfold stepCaller
  cases hk : st.phases[k]? with
  | none => exact h
  | some ph =>
    obtain ⟨hklen, hget⟩ := List.getElem?_eq_some.mp hk
    have hget2 : st.phases.get ⟨k, hklen⟩ = ph := by
      rw [List.get_eq_getElem]
      exact hget
    have hset := fun (x : CallerPhase) =>
      countP_set_add isIdlePhase st.phases k x hklen
    cases ph with
    | idle =>
      dsimp only
      split_ifs with h1 h2
      · have hs := hset (CallerPhase.done st.cache.token)
        rw [hget2] at hs
        simp [idleCount, isIdlePhase] at *
        omega
      · have hs := hset (CallerPhase.done none)
        rw [hget2] at hs
        simp [idleCount, isIdlePhase] at *
        omega
      · have hs := hset CallerPhase.inFlight
        rw [hget2] at hs
        simp [idleCount, isIdlePhase] at *
        omega
    | inFlight =>
      cases net with
      | ok tok ms =>
        have hs := hset (CallerPhase.done (some tok))
        rw [hget2] at hs
        simp [idleCount, isIdlePhase] at *
        omega
      | httpError s =>
        have hs := hset (CallerPhase.done none)
        rw [hget2] at hs
        simp [idleCount, isIdlePhase] at *
        omega
      | exc =>
        have hs := hset (CallerPhase.done none)
        rw [hget2] at hs
        simp [idleCount, isIdlePhase] at *
        omega
    | done res => exact h

/-- Running any schedule cannot issue more OAuth calls than the bound
permits. -/
lemma runSchedule_calls_le (auth : Bool) (now : ℚ) (net : OauthOutcome) :
    ∀ (sched : List Nat) (st : MultiState) (N : Nat),
      st.oauthCalls + idleCount st.phases ≤ N →
      (runSchedule auth now net st sched).oauthCalls ≤ N := by
  intro sched
  induction sched with
  | nil =>
    intro st N h
    simp only [runSchedule]
    omega
  | cons k rest ih =>
    intro st N h
    simp only [runSchedule]
    exact ih _ N (stepCaller_invariant auth now net N st k h)

/-- C8 counterexample: two callers of `get_gigachat_token` interleaved
at the `await` boundary (both run the cache check before either OAuth
exchange completes) issue two OAuth requests, not one — there is no
single-flight serialization. -/
theorem C8_single_flight_counterexample :
    (runSchedule true 0 (OauthOutcome.ok "tok" 1800000) (initState 2) [0, 1, 0, 1]).oauthCalls
      = 2
    ∧ (runSchedule true 0 (OauthOutcome.ok "tok" 1800000) (initState 2) [0, 1, 0, 1]).phases
      = [CallerPhase.done (some "tok"), CallerPhase.done (some "tok")]
    ∧ (2 : Nat) ≠ 1 := by
  refine ⟨by decide, by decide, by decide⟩

/-- C8 amended: each caller issues at most one OAuth request, so `n`
concurrent callers issue at most `n` (not exactly one) OAuth calls;
interleaved callers that all check the cache before any refresh
completes each issue their own call, while a caller that checks after a
completed successful refresh is served from the cache — as in the
sequential schedule, which issues exactly one call. -/
theorem C8_refresh_concurrency :
    (∀ (auth : Bool) (now : ℚ) (net : OauthOutcome) (n : Nat) (sched : List Nat),
      (runSchedule auth now net (initState n) sched).oauthCalls ≤ n)
    ∧ (runSchedule true 0 (OauthOutcome.ok "tok" 1800000) (initState 2)
        [0, 0, 1, 1]).oauthCalls = 1 := by
  constructor
  · intro auth now net n sched
    exact runSchedule_calls_le auth now net sched (initState n) n
      (by simp [initState, idleCount_replicate])
  · have hhit : cacheHit ⟨some "tok", some ((1800000 : ℚ) / 1000)⟩ 0 = true := by
      show (!"tok".isEmpty && !decide (((1800000 : ℚ) / 1000) = 0)
          && decide ((0 : ℚ) < (1800000 : ℚ) / 1000 - 60)) = true
      have h0 : ¬(((1800000 : ℚ) / 1000) = 0) := by norm_num
      have h1 : (0 : ℚ) < (1800000 : ℚ) / 1000 - 60 := by norm_num
      have h2 : "tok".isEmpty = false := by decide
      simp [h0, h1, h2]
    have hmiss : cacheHit ⟨none, none⟩ 0 = false := rfl
    simp [runSchedule, stepCaller, initState, hmiss, hhit]
